import Mathlib

/-!
Shallow embedding of `ReinLife/Models/PERD3QN.py`: the dueling network
(`DuelingDDQN`), the prioritized replay buffer (`PrioritizedReplayBuffer`)
and the agent controller (`PERD3QNAgent`).  Tensors are modelled as lists of
rationals (a matrix is a list of rows); `np.random` / `random` draws are
passed in explicitly as parameters; the float power `x ** e` is abstracted
as a parameter `rpow : ℚ → ℚ → ℚ` where its exact value does not matter.
-/

namespace ReinLife

/-- Dot product of two vectors (`torch` matmul row action). -/
def dot (xs ys : List ℚ) : ℚ := (List.zipWith (· * ·) xs ys).sum

/-- Model of `nn.Linear`: a weight matrix (rows = output features) and a bias. -/
structure Linear where
  weight : List (List ℚ)
  bias : List ℚ
  deriving Repr, DecidableEq

/-- Applying a linear layer to one input vector: `y i = weight i ⬝ x + bias i`. -/
def Linear.apply (l : Linear) (x : List ℚ) : List ℚ :=
  List.zipWith (fun row b => dot row x + b) l.weight l.bias

/-- Elementwise rectified linear unit, `F.relu`. -/
def reluVec (x : List ℚ) : List ℚ := x.map (fun v => max v 0)

/-- Model of the `DuelingDDQN` module: the shared layer `fc`, the advantage
head `adv_fc1`/`adv_fc2` and the value head `value_fc1`/`value_fc2`
(`PERD3QN.py`, lines 185-196). -/
structure DuelingDDQN where
  observation_dim : ℕ
  action_dim : ℕ
  fc : Linear
  adv_fc1 : Linear
  adv_fc2 : Linear
  value_fc1 : Linear
  value_fc2 : Linear
  deriving Repr, DecidableEq

/-- The advantage head on a single observation:
`adv_fc2(relu(adv_fc1(relu(fc(observation)))))`. -/
def DuelingDDQN.advantageRow (net : DuelingDDQN) (observation : List ℚ) : List ℚ :=
  let feature := net.fc.apply observation
  net.adv_fc2.apply (reluVec (net.adv_fc1.apply (reluVec feature)))

/-- The value head on a single observation:
`value_fc2(relu(value_fc1(relu(fc(observation)))))` (a one-element vector). -/
def DuelingDDQN.valueRow (net : DuelingDDQN) (observation : List ℚ) : List ℚ :=
  let feature := net.fc.apply observation
  net.value_fc2.apply (reluVec (net.value_fc1.apply (reluVec feature)))

/-- Model of `tensor.mean()` with no axis argument: the mean over ALL entries
of the matrix (batch axis and action axis together). -/
def meanAll (m : List (List ℚ)) : ℚ :=
  (m.map List.sum).sum / ((m.map List.length).sum : ℚ)

/-- Model of `DuelingDDQN.forward` on a batch (`PERD3QN.py`, lines 198-202):
`advantage + value - advantage.mean()`, where `value` (shape `[N,1]`) is
broadcast across the action axis and `advantage.mean()` is the scalar mean
over all `N*A` entries of the advantage tensor. -/
def DuelingDDQN.forward (net : DuelingDDQN) (batch : List (List ℚ)) : List (List ℚ) :=
  let advantage := batch.map net.advantageRow
  let value := batch.map net.valueRow
  let m := meanAll advantage
  List.zipWith (fun adv v => adv.map (fun a => a + v.headD 0 - m)) advantage value

/-- Written from the spec's words, for comparison with `DuelingDDQN.forward`:
`advantage + value - mean(advantage, axis=action)`, i.e. row `n` of the
output is `advantage[n,:] + value[n] - (sum_a advantage[n,a]) / A`. -/
def DuelingDDQN.forwardSpecRowMean (net : DuelingDDQN) (batch : List (List ℚ)) :
    List (List ℚ) :=
  let advantage := batch.map net.advantageRow
  let value := batch.map net.valueRow
  List.zipWith
    (fun adv v => adv.map (fun a => a + v.headD 0 - adv.sum / (adv.length : ℚ)))
    advantage value

/-- Index of the first maximal entry of a vector: model of
`tensor.max(1)[1]` for one row (ties broken toward the first index). -/
def firstArgmax (xs : List ℚ) : ℕ :=
  (List.range xs.length).foldl
    (fun best i => if xs.getD best 0 < xs.getD i 0 then i else best) 0

/-- Model of `np.max` / `tensor.max(1)[0]` on a nonempty vector. -/
def npMax : List ℚ → ℚ
  | [] => 0
  | x :: xs => xs.foldl max x

/-- Model of `DuelingDDQN.act` (`PERD3QN.py`, lines 204-210).  The call
`random.random()` is modelled by the parameter `r ∈ [0,1)` and
`random.choice(list(range(action_dim)))` by `randChoice < action_dim`:
if `r > epsilon` the greedy action is taken, else the random one. -/
def DuelingDDQN.act (net : DuelingDDQN) (observation : List ℚ) (epsilon r : ℚ)
    (randChoice : ℕ) : ℕ :=
  if epsilon < r then firstArgmax ((net.forward [observation]).headD [])
  else randChoice

/-- One stored transition (`self.memory` entry, `PERD3QN.py`, line 150):
the observation fields hold the `np.expand_dims(·, 0)` result, a `[1, D]`
matrix. -/
structure Transition where
  observation : List (List ℚ)
  action : ℕ
  reward : ℚ
  next_observation : List (List ℚ)
  done : Bool
  deriving Repr, DecidableEq

/-- Default transition used for out-of-range `getD` reads. -/
def defaultTransition : Transition :=
  { observation := [], action := 0, reward := 0, next_observation := [], done := false }

/-- Model of `PrioritizedReplayBuffer` (`PERD3QN.py`, lines 133-141): the
priority array has fixed length `capacity` (`np.zeros([capacity])`). -/
structure PrioritizedReplayBuffer where
  capacity : ℕ
  alpha : ℚ
  beta : ℚ
  beta_increment : ℚ
  pos : ℕ
  memory : List Transition
  priorities : List ℚ
  deriving Repr, DecidableEq

/-- Model of `PrioritizedReplayBuffer.__init__` with explicit arguments. -/
def PrioritizedReplayBuffer.initBuf (capacity : ℕ) (alpha beta beta_increment : ℚ) :
    PrioritizedReplayBuffer :=
  { capacity := capacity, alpha := alpha, beta := beta, beta_increment := beta_increment
    pos := 0, memory := [], priorities := List.replicate capacity 0 }

/-- Model of `PrioritizedReplayBuffer.__init__` with the default parameters
`alpha=.6, beta=.4, beta_increment=1000`. -/
def PrioritizedReplayBuffer.initDefault (capacity : ℕ) : PrioritizedReplayBuffer :=
  PrioritizedReplayBuffer.initBuf capacity (3/5) (2/5) 1000

/-- Model of `PrioritizedReplayBuffer.store` (`PERD3QN.py`, lines 143-155):
`max_prior = np.max(self.priorities) if self.memory else 1.0`; append while
under capacity, else overwrite at `pos`; write the priority at `pos`;
advance `pos` modulo `capacity`. -/
def PrioritizedReplayBuffer.store (b : PrioritizedReplayBuffer) (observation : List ℚ)
    (action : ℕ) (reward : ℚ) (next_observation : List ℚ) (done : Bool) :
    PrioritizedReplayBuffer :=
  let t : Transition :=
    { observation := [observation], action := action, reward := reward
      next_observation := [next_observation], done := done }
  let max_prior := if b.memory.isEmpty then 1 else npMax b.priorities
  { b with
    memory := if b.memory.length < b.capacity then b.memory ++ [t] else b.memory.set b.pos t
    priorities := b.priorities.set b.pos max_prior
    pos := (b.pos + 1) % b.capacity }

/-- The probability vector handed to `np.random.choice` in
`PrioritizedReplayBuffer.sample` (`PERD3QN.py`, lines 158-163): the priority
slice for the occupied slots when under capacity (else the whole array),
raised to `alpha` and normalized.  The float power `**` is abstracted as the
parameter `rpow`. -/
def PrioritizedReplayBuffer.sampleProbs (b : PrioritizedReplayBuffer)
    (rpow : ℚ → ℚ → ℚ) : List ℚ :=
  let probs0 := if b.memory.length < b.capacity then b.priorities.take b.memory.length
                else b.priorities
  let powed := probs0.map (fun p => rpow p b.alpha)
  powed.map (fun p => p / powed.sum)

/-- The tuple returned by `PrioritizedReplayBuffer.sample`. -/
structure SampleOut where
  observation : List (List ℚ)
  action : List ℕ
  reward : List ℚ
  next_observation : List (List ℚ)
  done : List Bool
  indices : List ℕ
  weights : List ℚ
  deriving Repr, DecidableEq

/-- Model of `PrioritizedReplayBuffer.sample` (`PERD3QN.py`, lines 157-175).
The draw `np.random.choice(len(self.memory), batch_size, p=probs)` is
modelled by the parameter `draws` (its contract — `batch_size` values, each
below `len(self.memory)` — becomes hypotheses of the theorems); `**` is the
parameter `rpow`.  Returns the sampled batch and the buffer with the
updated `beta`. -/
def PrioritizedReplayBuffer.sample (b : PrioritizedReplayBuffer) (rpow : ℚ → ℚ → ℚ)
    (batch_size : ℕ) (draws : List ℕ) : SampleOut × PrioritizedReplayBuffer :=
  let probs := b.sampleProbs rpow
  let indices := draws
  let samples := indices.map (fun i => b.memory.getD i defaultTransition)
  let weights0 := indices.map
    (fun i => rpow ((b.memory.length : ℚ) * probs.getD i 0) (-b.beta))
  let beta' := if b.beta < 1 then b.beta + b.beta_increment else b.beta
  let weights := weights0.map (fun w => w / npMax weights0)
  ({ observation := (samples.map (·.observation)).flatten
     action := samples.map (·.action)
     reward := samples.map (·.reward)
     next_observation := (samples.map (·.next_observation)).flatten
     done := samples.map (·.done)
     indices := indices
     weights := weights },
   { b with beta := beta' })

/-- Model of `PrioritizedReplayBuffer.update_priorities` (`PERD3QN.py`,
lines 177-179): write each priority at its index, in order. -/
def PrioritizedReplayBuffer.update_priorities (b : PrioritizedReplayBuffer)
    (indices : List ℕ) (priorities : List ℚ) : PrioritizedReplayBuffer :=
  { b with priorities :=
      (List.zip indices priorities).foldl (fun arr ip => arr.set ip.1 ip.2) b.priorities }

/-- Model of `torch.gather(1, action.unsqueeze(1)).squeeze(1)`: pick the
entry of each row at the taken action (`PERD3QN.py`, line 106). -/
def torchGather (q_values : List (List ℚ)) (action : List ℕ) : List ℚ :=
  List.zipWith (fun row a => row.getD a 0) q_values action

/-- Model of `tensor.max(1)[0]`: row-wise maximum (`PERD3QN.py`, line 105). -/
def rowMaxes (m : List (List ℚ)) : List ℚ := m.map npMax

/-- The `next_q_value` of `PERD3QNAgent.train` (`PERD3QN.py`, lines 104-105):
`target_net.forward(next_observation).max(1)[0]` (the `.detach()` has no
numeric effect). -/
def trainNextQValue (targetNet : DuelingDDQN) (next_observation : List (List ℚ)) :
    List ℚ :=
  rowMaxes (targetNet.forward next_observation)

/-- The `q_value` of `PERD3QNAgent.train` (`PERD3QN.py`, lines 103, 106). -/
def trainQValue (evalNet : DuelingDDQN) (observation : List (List ℚ))
    (action : List ℕ) : List ℚ :=
  torchGather (evalNet.forward observation) action

/-- The `expected_q_value` of `PERD3QNAgent.train` (`PERD3QN.py`, line 107):
`reward + gamma * (1 - done) * next_q_value` (with `done` as a 0/1 float). -/
def expectedQValue (gamma : ℚ) (reward done next_q_value : List ℚ) : List ℚ :=
  List.zipWith3 (fun r d nq => r + gamma * (1 - d) * nq) reward done next_q_value

/-- The priorities computed by `PERD3QNAgent.train` (`PERD3QN.py`, line 110):
`torch.abs(next_q_value - q_value)`. -/
def trainPriorities (evalNet targetNet : DuelingDDQN)
    (observation next_observation : List (List ℚ)) (action : List ℕ) : List ℚ :=
  List.zipWith (fun nq q => |nq - q|)
    (trainNextQValue targetNet next_observation)
    (trainQValue evalNet observation action)

/-- Written from the spec's words, for comparison with `trainPriorities`:
new priorities `= |target - q_value|` where the target is
`reward + gamma * (1 - done) * max_a target_net(next_observation)[a]`. -/
def trainPrioritiesSpecTarget (gamma : ℚ) (evalNet targetNet : DuelingDDQN)
    (observation next_observation : List (List ℚ)) (action : List ℕ)
    (reward done : List ℚ) : List ℚ :=
  List.zipWith (fun t q => |t - q|)
    (expectedQValue gamma reward done (trainNextQValue targetNet next_observation))
    (trainQValue evalNet observation action)

/-- The effect of `PERD3QNAgent.train` (`PERD3QN.py`, lines 94-111) on the
replay buffer: sample a batch, compute the priorities from the sampled
tensors and write them back at the sampled indices (the loss and the
optimizer step touch no buffer state). -/
def trainBufferEffect (b : PrioritizedReplayBuffer) (rpow : ℚ → ℚ → ℚ)
    (batch_size : ℕ) (draws : List ℕ) (evalNet targetNet : DuelingDDQN) :
    PrioritizedReplayBuffer :=
  let out := (b.sample rpow batch_size draws).1
  let b1 := (b.sample rpow batch_size draws).2
  b1.update_priorities out.indices
    (trainPriorities evalNet targetNet out.observation out.next_observation out.action)

/-- Model of the `PERD3QNAgent` state. -/
structure PERD3QNAgent where
  target_net : DuelingDDQN
  eval_net : DuelingDDQN
  buffer : PrioritizedReplayBuffer
  exploration : ℕ
  soft_update_freq : ℕ
  train_freq : ℕ
  batch_size : ℕ
  gamma : ℚ
  n_epi : ℕ
  epsilon : ℚ
  epsilon_min : ℚ
  decay : ℚ
  training : Bool
  deriving Repr, DecidableEq

/-- Model of `PERD3QNAgent.__init__` without a model path to load
(`PERD3QN.py`, lines 48-70): two freshly initialized networks `targetInit`
and `evalInit`, after which `eval_net.load_state_dict(target_net.state_dict())`
makes the eval network a copy of the target network; `epsilon` starts at
`0.9` and is set to `0` when not training. -/
def PERD3QNAgent.init (targetInit evalInit : DuelingDDQN)
    (exploration soft_update_freq train_freq batch_size capacity : ℕ) (gamma : ℚ)
    (training : Bool) : PERD3QNAgent :=
  { target_net := targetInit
    eval_net := targetInit
    buffer := PrioritizedReplayBuffer.initDefault capacity
    exploration := exploration
    soft_update_freq := soft_update_freq
    train_freq := train_freq
    batch_size := batch_size
    gamma := gamma
    n_epi := 0
    epsilon := if training then 9/10 else 0
    epsilon_min := 1/20
    decay := 99/100
    training := training }

/-- Model of `PERD3QNAgent.get_action` (`PERD3QN.py`, lines 81-89): when
training and the episode index advanced, decay `epsilon` (only while above
`epsilon_min`) and record the episode index; then delegate to the eval
network's `act`.  Returns the action and the updated agent state. -/
def PERD3QNAgent.get_action (ag : PERD3QNAgent) (state : List ℚ) (n_epi : ℕ)
    (r : ℚ) (randChoice : ℕ) : ℕ × PERD3QNAgent :=
  let ag' :=
    if ag.training = true ∧ ag.n_epi < n_epi then
      { ag with
        epsilon := if ag.epsilon_min < ag.epsilon then ag.epsilon * ag.decay
                   else ag.epsilon
        n_epi := n_epi }
    else ag
  (ag'.eval_net.act state ag'.epsilon r randChoice, ag')

/-- Model of `PERD3QNAgent.apply_gaussian_noise` (`PERD3QN.py`, lines
127-130): add the drawn noise to the target network's first-layer weights
in place, then load the eval network's state into the target network. -/
def PERD3QNAgent.apply_gaussian_noise (ag : PERD3QNAgent)
    (noise : List (List ℚ)) : PERD3QNAgent :=
  let target1 :=
    { ag.target_net with
      fc := { weight := List.zipWith (List.zipWith (· + ·)) ag.target_net.fc.weight noise
              bias := ag.target_net.fc.bias } }
  let ag1 := { ag with target_net := target1 }
  { ag1 with target_net := ag1.eval_net }

/-- Zero vector of a given length. -/
def zeros (n : ℕ) : List ℚ := List.replicate n 0

/-- Zero matrix. -/
def zeroRows (m n : ℕ) : List (List ℚ) := List.replicate m (zeros n)

/-- First standard basis row vector of a given length. -/
def e0 (n : ℕ) : List ℚ := 1 :: zeros (n - 1)

/-- A concrete network constructible by `DuelingDDQN.__init__` with
`observation_dim = 1`, `action_dim = 2` and the hard-coded hidden width 128:
the shared layer and the advantage head pass the input through to the first
advantage coordinate, the value head is identically zero. -/
def probeNet : DuelingDDQN :=
  { observation_dim := 1
    action_dim := 2
    fc := { weight := e0 1 :: zeroRows 127 1, bias := 0 :: zeros 127 }
    adv_fc1 := { weight := e0 128 :: zeroRows 127 128, bias := 0 :: zeros 127 }
    adv_fc2 := { weight := [e0 128, zeros 128], bias := [0, 0] }
    value_fc1 := { weight := zeroRows 128 128, bias := zeros 128 }
    value_fc2 := { weight := [zeros 128], bias := [0] } }

/-- A training agent as constructed by `PERD3QNAgent.__init__` (capacity 4
for concreteness). -/
def agent0 : PERD3QNAgent :=
  PERD3QNAgent.init probeNet probeNet 1000 200 20 64 4 (99/100) true

/-- Iterate `get_action` with the episode index advancing by one each call
(the random draw `r = 0` makes `act` take the random branch, which does not
touch the agent state). -/
def stepManyEps (ag : PERD3QNAgent) : ℕ → PERD3QNAgent
  | 0 => ag
  | k + 1 =>
    let a := stepManyEps ag k
    (a.get_action [] (a.n_epi + 1) 0 0).2

/-- A capacity-4 buffer after storing five transitions (the `k`-th carries
the payload `k`). -/
def buf5 : PrioritizedReplayBuffer :=
  (((((PrioritizedReplayBuffer.initDefault 4).store [1] 1 1 [1] false).store
      [2] 2 2 [2] false).store [3] 3 3 [3] false).store [4] 4 4 [4] false).store
    [5] 5 5 [5] false

/-- A capacity-4 buffer after storing two transitions. -/
def buf2of4 : PrioritizedReplayBuffer :=
  ((PrioritizedReplayBuffer.initDefault 4).store [1] 1 1 [1] false).store
    [2] 2 2 [2] false

/-- A capacity-2 buffer at capacity after storing two transitions. -/
def buf2of2 : PrioritizedReplayBuffer :=
  ((PrioritizedReplayBuffer.initDefault 2).store [1] 1 1 [1] false).store
    [2] 2 2 [2] false

/-! ## Helper lemmas -/

theorem le_foldl_max (a : ℚ) (l : List ℚ) : a ≤ l.foldl max a := by
  induction l generalizing a with
  | nil => exact le_refl a
  | cons x xs ih => exact le_trans (le_max_left a x) (ih (max a x))

theorem le_foldl_max_of_mem {x : ℚ} {l : List ℚ} (a : ℚ) (h : x ∈ l) :
    x ≤ l.foldl max a := by
  induction l generalizing a with
  | nil => cases h
  | cons y ys ih =>
    rcases List.mem_cons.1 h with rfl | hy
    · exact le_trans (le_max_right a x) (le_foldl_max _ _)
    · exact ih (max a y) hy

theorem foldl_max_mem (a : ℚ) (l : List ℚ) : l.foldl max a = a ∨ l.foldl max a ∈ l := by
  induction l generalizing a with
  | nil => exact Or.inl rfl
  | cons x xs ih =>
    rcases ih (max a x) with h | h
    · rcases max_choice a x with hm | hm
      · exact Or.inl (by rw [List.foldl_cons, h, hm])
      · exact Or.inr (by rw [List.foldl_cons, h, hm]; exact List.mem_cons_self x xs)
    · exact Or.inr (List.mem_cons_of_mem x h)

theorem le_npMax_of_mem {x : ℚ} {l : List ℚ} (h : x ∈ l) : x ≤ npMax l := by
  cases l with
  | nil => cases h
  | cons y ys =>
    rcases List.mem_cons.1 h with rfl | hy
    · exact le_foldl_max x ys
    · exact le_foldl_max_of_mem y hy

theorem npMax_mem {l : List ℚ} (h : l ≠ []) : npMax l ∈ l := by
  cases l with
  | nil => exact absurd rfl h
  | cons y ys =>
    rcases foldl_max_mem y ys with hm | hm
    · rw [npMax, hm]; exact List.mem_cons_self y ys
    · exact List.mem_cons_of_mem y hm

theorem npMax_eq_of_mem_of_le {l : List ℚ} {M : ℚ} (hm : M ∈ l)
    (hb : ∀ x ∈ l, x ≤ M) : npMax l = M := by
  have h1 : npMax l ≤ M := hb _ (npMax_mem (List.ne_nil_of_mem hm))
  exact le_antisymm h1 (le_npMax_of_mem hm)

/-! ## C10: the freshly constructed agent has identical eval and target nets -/

/-- C10.  Immediately after constructing a `PERD3QNAgent` without a model
path to load, the eval network's parameters equal the target network's
parameters: `__init__` loads the target network's state dict into the eval
network. -/
theorem c10_init_eval_eq_target (targetInit evalInit : DuelingDDQN)
    (exploration soft_update_freq train_freq batch_size capacity : ℕ) (gamma : ℚ)
    (training : Bool) :
    (PERD3QNAgent.init targetInit evalInit exploration soft_update_freq train_freq
        batch_size capacity gamma training).eval_net =
      (PERD3QNAgent.init targetInit evalInit exploration soft_update_freq train_freq
        batch_size capacity gamma training).target_net := rfl

/-! ## C4: apply_gaussian_noise is a no-op on the final target parameters -/

/-- C4.  After any call to `apply_gaussian_noise`, for every noise value the
target network equals the eval network (the perturbation of the target's
first layer is immediately overwritten by `load_state_dict(eval_net…)`),
and the eval network is unchanged. -/
theorem c4_gaussian_noise_noop (ag : PERD3QNAgent) (noise : List (List ℚ)) :
    (ag.apply_gaussian_noise noise).target_net = ag.eval_net ∧
      (ag.apply_gaussian_noise noise).eval_net = ag.eval_net :=
  ⟨rfl, rfl⟩

/-! ## C3: the beta increment saturates beta past 1 on the first sample -/

/-- C3.  With the default parameters, `beta` starts at `0.4` and
`beta_increment` at `1000`; `store` never touches them; the first `sample`
call adds the increment directly (since `0.4 < 1`), leaving
`beta = 0.4 + 1000 = 1000.4 > 1`; and any `sample` call with `beta ≥ 1`
leaves `beta` unchanged — so every call after the first is a no-op on it. -/
theorem c3_beta_saturates :
    (∀ c, (PrioritizedReplayBuffer.initDefault c).beta = 2/5 ∧
      (PrioritizedReplayBuffer.initDefault c).beta_increment = 1000) ∧
    (∀ (b : PrioritizedReplayBuffer) o a r no d,
      (b.store o a r no d).beta = b.beta ∧
        (b.store o a r no d).beta_increment = b.beta_increment) ∧
    (∀ (b : PrioritizedReplayBuffer) rpow bs draws, b.beta = 2/5 →
      b.beta_increment = 1000 →
      (b.sample rpow bs draws).2.beta = 2/5 + 1000 ∧ (1 : ℚ) < 2/5 + 1000) ∧
    (∀ (b : PrioritizedReplayBuffer) rpow bs draws, ¬ b.beta < 1 →
      (b.sample rpow bs draws).2.beta = b.beta) := by
  refine ⟨fun c => ⟨rfl, rfl⟩, fun b o a r no d => ⟨rfl, rfl⟩, ?_, ?_⟩
  · intro b rpow bs draws hb hinc
    constructor
    · show (if b.beta < 1 then b.beta + b.beta_increment else b.beta) = 2/5 + 1000
      rw [hb, hinc, if_pos (by norm_num)]
    · norm_num
  · intro b rpow bs draws hb
    show (if b.beta < 1 then b.beta + b.beta_increment else b.beta) = b.beta
    rw [if_neg hb]

/-- Witness for C3 at the concrete default buffer of capacity 4: the first
sample leaves `beta = 1000.4`, and a second sample leaves it unchanged. -/
theorem c3_witness :
    ((PrioritizedReplayBuffer.initDefault 4).sample (fun x _ => x) 1 [0]).2.beta
        = 2/5 + 1000 ∧
      ((((PrioritizedReplayBuffer.initDefault 4).sample (fun x _ => x) 1 [0]).2.sample
          (fun x _ => x) 1 [0]).2.beta
        = ((PrioritizedReplayBuffer.initDefault 4).sample (fun x _ => x) 1 [0]).2.beta) := by
  have h1 := (c3_beta_saturates.2.2.1 (PrioritizedReplayBuffer.initDefault 4)
    (fun x _ => x) 1 [0] rfl rfl).1
  refine ⟨h1, c3_beta_saturates.2.2.2 _ (fun x _ => x) 1 [0] ?_⟩
  rw [h1]
  norm_num

/-! ## C5: the epsilon schedule -/

/-- C5 (amended).  Over `get_action` calls, `epsilon` is monotonically
non-increasing and is decayed at most once per episode transition (a second
call with the same episode index, or a call with a non-advanced index, does
not change the agent state); `epsilon` decays only while above
`epsilon_min`, so it never goes below `epsilon_min * decay` — but it is not
floored at `epsilon_min` itself. -/
theorem c5_epsilon_schedule :
    (∀ (ag : PERD3QNAgent) (s : List ℚ) (n : ℕ) (r : ℚ) (c : ℕ),
      0 ≤ ag.epsilon → 0 ≤ ag.decay → ag.decay ≤ 1 →
      ((ag.get_action s n r c).2).epsilon ≤ ag.epsilon) ∧
    (∀ (ag : PERD3QNAgent) (s : List ℚ) (n : ℕ) (r : ℚ) (c : ℕ),
      0 ≤ ag.decay → ag.epsilon_min * ag.decay ≤ ag.epsilon →
      ag.epsilon_min * ag.decay ≤ ((ag.get_action s n r c).2).epsilon) ∧
    (∀ (ag : PERD3QNAgent) (s : List ℚ) (n : ℕ) (r : ℚ) (c : ℕ) s' r' c',
      (((ag.get_action s n r c).2).get_action s' n r' c').2 = (ag.get_action s n r c).2) ∧
    (∀ (ag : PERD3QNAgent) (s : List ℚ) (n : ℕ) (r : ℚ) (c : ℕ),
      ¬ (ag.training = true ∧ ag.n_epi < n) → (ag.get_action s n r c).2 = ag) := by
  have hsnd : ∀ (ag : PERD3QNAgent) (s : List ℚ) (n : ℕ) (r : ℚ) (c : ℕ),
      (ag.get_action s n r c).2 =
        if ag.training = true ∧ ag.n_epi < n then
          { ag with
            epsilon := if ag.epsilon_min < ag.epsilon then ag.epsilon * ag.decay
                       else ag.epsilon
            n_epi := n }
        else ag := fun ag s n r c => rfl
  refine ⟨?_, ?_, ?_, ?_⟩
  · intro ag s n r c he hd0 hd1
    rw [hsnd]
    by_cases h : ag.training = true ∧ ag.n_epi < n
    · rw [if_pos h]
      by_cases h2 : ag.epsilon_min < ag.epsilon
      · show (if ag.epsilon_min < ag.epsilon then ag.epsilon * ag.decay
              else ag.epsilon) ≤ ag.epsilon
        rw [if_pos h2]
        exact mul_le_of_le_one_right he hd1
      · show (if ag.epsilon_min < ag.epsilon then ag.epsilon * ag.decay
              else ag.epsilon) ≤ ag.epsilon
        rw [if_neg h2]
    · rw [if_neg h]
  · intro ag s n r c hd0 hlow
    rw [hsnd]
    by_cases h : ag.training = true ∧ ag.n_epi < n
    · rw [if_pos h]
      by_cases h2 : ag.epsilon_min < ag.epsilon
      · show ag.epsilon_min * ag.decay ≤
          (if ag.epsilon_min < ag.epsilon then ag.epsilon * ag.decay else ag.epsilon)
        rw [if_pos h2]
        exact mul_le_mul_of_nonneg_right (le_of_lt h2) hd0
      · show ag.epsilon_min * ag.decay ≤
          (if ag.epsilon_min < ag.epsilon then ag.epsilon * ag.decay else ag.epsilon)
        rw [if_neg h2]
        exact hlow
    · rw [if_neg h]
      exact hlow
  · intro ag s n r c s' r' c'
    by_cases h : ag.training = true ∧ ag.n_epi < n
    · rw [hsnd ag s n r c, if_pos h, hsnd, if_neg]
      intro hcon
      exact absurd hcon.2 (lt_irrefl n)
    · rw [hsnd ag s n r c, if_neg h, hsnd, if_neg h]
  · intro ag s n r c h
    rw [hsnd, if_neg h]

/-- Closed form for the iterated epsilon decay from the freshly constructed
training agent: for the first 288 episode transitions every step decays,
since epsilon stays above `epsilon_min` until the very last one. -/
theorem stepManyEps_closed : ∀ k, k ≤ 288 →
    (stepManyEps agent0 k).epsilon = (9/10) * (99/100)^k ∧
    (stepManyEps agent0 k).n_epi = k ∧
    (stepManyEps agent0 k).epsilon_min = 1/20 ∧
    (stepManyEps agent0 k).decay = 99/100 ∧
    (stepManyEps agent0 k).training = true := by
  intro k
  induction k with
  | zero =>
    intro _
    exact ⟨by norm_num [stepManyEps, agent0, PERD3QNAgent.init], rfl, rfl, rfl, rfl⟩
  | succ k ih =>
    intro hk
    obtain ⟨he, hn, hm, hd, ht⟩ := ih (le_trans (Nat.le_succ k) hk)
    have hk' : k ≤ 287 := Nat.lt_succ_iff.mp hk
    have heps_gt : (stepManyEps agent0 k).epsilon_min < (stepManyEps agent0 k).epsilon := by
      rw [hm, he]
      have h287 : (1/20 : ℚ) < 9/10 * (99/100)^287 := by norm_num
      have hmono : (99/100 : ℚ)^287 ≤ (99/100)^k :=
        pow_le_pow_of_le_one (by norm_num) (by norm_num) hk'
      calc (1/20 : ℚ) < 9/10 * (99/100)^287 := h287
        _ ≤ 9/10 * (99/100)^k := by
            exact mul_le_mul_of_nonneg_left hmono (by norm_num)
    have hstep : stepManyEps agent0 (k+1) =
        ((stepManyEps agent0 k).get_action []
          ((stepManyEps agent0 k).n_epi + 1) 0 0).2 := rfl
    have hga : ((stepManyEps agent0 k).get_action []
        ((stepManyEps agent0 k).n_epi + 1) 0 0).2 =
        { stepManyEps agent0 k with
          epsilon := (stepManyEps agent0 k).epsilon * (stepManyEps agent0 k).decay
          n_epi := (stepManyEps agent0 k).n_epi + 1 } := by
      show (if (stepManyEps agent0 k).training = true ∧
            (stepManyEps agent0 k).n_epi < (stepManyEps agent0 k).n_epi + 1 then _ else _) = _
      rw [if_pos ⟨ht, Nat.lt_succ_self _⟩]
      rw [if_pos heps_gt]
    rw [hstep, hga]
    refine ⟨?_, by rw [hn], hm, hd, ht⟩
    rw [he, hd]
    ring

/-- C5 counterexample.  The claim "epsilon never goes below `epsilon_min`"
fails on the code: starting from the freshly constructed training agent
(`epsilon = 0.9 ≥ epsilon_min`), after 288 episode transitions epsilon is
`0.9 * 0.99^288 < 0.05 = epsilon_min`. -/
theorem c5_counterexample :
    agent0.training = true ∧ agent0.epsilon_min ≤ agent0.epsilon ∧
    (stepManyEps agent0 288).epsilon < (stepManyEps agent0 288).epsilon_min := by
  obtain ⟨he, -, hm, -, -⟩ := stepManyEps_closed 288 le_rfl
  refine ⟨rfl, by norm_num [agent0, PERD3QNAgent.init], ?_⟩
  rw [he, hm]
  norm_num

/-- Witness for C5 at the concrete fresh training agent and one episode
transition. -/
theorem c5_witness :
    ((agent0.get_action [] 1 0 0).2).epsilon ≤ agent0.epsilon ∧
    agent0.epsilon_min * agent0.decay ≤ ((agent0.get_action [] 1 0 0).2).epsilon := by
  constructor
  · exact c5_epsilon_schedule.1 agent0 [] 1 0 0
      (by norm_num [agent0, PERD3QNAgent.init])
      (by norm_num [agent0, PERD3QNAgent.init])
      (by norm_num [agent0, PERD3QNAgent.init])
  · exact c5_epsilon_schedule.2.1 agent0 [] 1 0 0
      (by norm_num [agent0, PERD3QNAgent.init])
      (by norm_num [agent0, PERD3QNAgent.init])

/-! ## Evaluation lemmas for the probe network -/

theorem dot_zeros : ∀ (n : ℕ) (ys : List ℚ), dot (zeros n) ys = 0 := by
  intro n
  induction n with
  | zero => intro ys; rfl
  | succ n ih =>
    intro ys
    cases ys with
    | nil => rfl
    | cons y ys =>
      have h : dot (zeros (n+1)) (y :: ys) = 0 * y + dot (zeros n) ys := rfl
      rw [h, ih]
      ring

theorem dot_e0 (n : ℕ) (y : ℚ) (ys : List ℚ) : dot (e0 n) (y :: ys) = y := by
  have h : dot (e0 n) (y :: ys) = 1 * y + dot (zeros (n-1)) ys := rfl
  rw [h, dot_zeros]
  ring

theorem apply_cons (r : List ℚ) (W : List (List ℚ)) (b : ℚ) (B : List ℚ)
    (x : List ℚ) :
    Linear.apply ⟨r :: W, b :: B⟩ x = (dot r x + b) :: Linear.apply ⟨W, B⟩ x := rfl

theorem apply_zeroRows : ∀ (m n : ℕ) (x : List ℚ),
    Linear.apply ⟨zeroRows m n, zeros m⟩ x = zeros m := by
  intro m
  induction m with
  | zero => intro n x; rfl
  | succ m ih =>
    intro n x
    show Linear.apply ⟨zeros n :: zeroRows m n, 0 :: zeros m⟩ x = 0 :: zeros m
    rw [apply_cons, ih, dot_zeros]
    norm_num

theorem reluVec_zeros (n : ℕ) : reluVec (zeros n) = zeros n := by
  simp [reluVec, zeros, List.map_replicate]

theorem reluVec_cons (y : ℚ) (l : List ℚ) :
    reluVec (y :: l) = max y 0 :: reluVec l := rfl

theorem probe_fc (x : ℚ) : probeNet.fc.apply [x] = x :: zeros 127 := by
  show Linear.apply ⟨e0 1 :: zeroRows 127 1, 0 :: zeros 127⟩ [x] = x :: zeros 127
  rw [apply_cons, apply_zeroRows, dot_e0]
  norm_num

theorem probe_advantageRow (x : ℚ) (hx : 0 ≤ x) :
    probeNet.advantageRow [x] = [x, 0] := by
  show probeNet.adv_fc2.apply
      (reluVec (probeNet.adv_fc1.apply (reluVec (probeNet.fc.apply [x])))) = [x, 0]
  rw [probe_fc, reluVec_cons, reluVec_zeros, max_eq_left hx]
  have h1 : probeNet.adv_fc1.apply (x :: zeros 127) = x :: zeros 127 := by
    show Linear.apply ⟨e0 128 :: zeroRows 127 128, 0 :: zeros 127⟩ (x :: zeros 127)
        = x :: zeros 127
    rw [apply_cons, apply_zeroRows, dot_e0]
    norm_num
  rw [h1, reluVec_cons, reluVec_zeros, max_eq_left hx]
  show Linear.apply ⟨[e0 128, zeros 128], [0, 0]⟩ (x :: zeros 127) = [x, 0]
  rw [show ([e0 128, zeros 128] : List (List ℚ)) = e0 128 :: [zeros 128] from rfl,
    show ([0, 0] : List ℚ) = 0 :: [0] from rfl, apply_cons, apply_cons, dot_e0, dot_zeros]
  norm_num
  rfl

theorem probe_valueRow (x : ℚ) : probeNet.valueRow [x] = [0] := by
  show probeNet.value_fc2.apply
      (reluVec (probeNet.value_fc1.apply (reluVec (probeNet.fc.apply [x])))) = [0]
  have h1 : probeNet.value_fc1.apply (reluVec (probeNet.fc.apply [x])) = zeros 128 :=
    apply_zeroRows 128 128 _
  rw [h1, reluVec_zeros]
  show Linear.apply ⟨[zeros 128], [0]⟩ (zeros 128) = [0]
  rw [show ([zeros 128] : List (List ℚ)) = zeros 128 :: [] from rfl,
    show ([0] : List ℚ) = 0 :: [] from rfl, apply_cons, dot_zeros]
  norm_num
  rfl

theorem probe_forward_zero : probeNet.forward [[0]] = [[0, 0]] := by
  have hsingle : probeNet.forward [[0]] =
      [(probeNet.advantageRow [0]).map
        (fun a => a + (probeNet.valueRow [0]).headD 0 -
          meanAll [probeNet.advantageRow [0]])] := rfl
  rw [hsingle, probe_advantageRow 0 le_rfl, probe_valueRow]
  norm_num [meanAll]

/-! ## C1: the subtracted advantage mean is global, not per-row -/

/-- C1 counterexample.  On the batch `[[0], [2]]` the code's
`advantage.mean()` is the scalar mean over all four advantage entries
(`1/2`), not the per-row action-axis mean, so `forward` differs from the
claimed per-row formula: the code returns `[[-1/2, -1/2], [3/2, -1/2]]`
while the claim demands `[[0, 0], [1, -1]]`. -/
theorem c1_counterexample :
    probeNet.forward [[0], [2]] ≠ probeNet.forwardSpecRowMean [[0], [2]] := by
  have ha0 := probe_advantageRow 0 le_rfl
  have ha2 := probe_advantageRow 2 (by norm_num)
  have hv0 := probe_valueRow 0
  have hv2 := probe_valueRow 2
  simp only [DuelingDDQN.forward, DuelingDDQN.forwardSpecRowMean, List.map, ha0, ha2,
    hv0, hv2, meanAll, List.zipWith, List.headD]
  norm_num

/-- Helper: zipping two maps of the same list is a single map. -/
theorem zipWith_map_same {α β γ δ : Type} (f : β → γ → δ) (g : α → β) (h : α → γ)
    (l : List α) :
    List.zipWith f (l.map g) (l.map h) = l.map (fun x => f (g x) (h x)) := by
  induction l with
  | nil => rfl
  | cons x xs ih => simp [ih]

/-- C1 (amended).  `forward` returns `advantage + value - m` where `m` is
the single scalar mean of the advantage tensor over ALL entries (batch axis
and action axis together), subtracted from every entry; the claimed
per-row action-axis mean subtraction holds only when the batch has one row
(and more generally when all rows have equal advantage means). -/
theorem c1_forward_mean :
    (∀ (net : DuelingDDQN) (batch : List (List ℚ)),
      net.forward batch = batch.map (fun obs => (net.advantageRow obs).map
        (fun a => a + (net.valueRow obs).headD 0 -
          meanAll (batch.map net.advantageRow)))) ∧
    (∀ (net : DuelingDDQN) (obs : List ℚ),
      net.forward [obs] = net.forwardSpecRowMean [obs]) := by
  constructor
  · intro net batch
    show List.zipWith _ (batch.map net.advantageRow) (batch.map net.valueRow) = _
    rw [zipWith_map_same]
  · intro net obs
    show List.zipWith _ _ _ = List.zipWith _ _ _
    simp [meanAll]

/-! ## C9: act at epsilon = 0 -/

/-- Helper: the fold computing `firstArgmax` over the first `n` indices
lands on the first maximal entry among them. -/
theorem firstArgmax_fold_spec (xs : List ℚ) : ∀ n : ℕ, 0 < n →
    ((List.range n).foldl
        (fun best i => if xs.getD best 0 < xs.getD i 0 then i else best) 0) < n ∧
    (∀ j < n, xs.getD j 0 ≤ xs.getD ((List.range n).foldl
        (fun best i => if xs.getD best 0 < xs.getD i 0 then i else best) 0) 0) ∧
    (∀ j < (List.range n).foldl
        (fun best i => if xs.getD best 0 < xs.getD i 0 then i else best) 0,
      xs.getD j 0 < xs.getD ((List.range n).foldl
        (fun best i => if xs.getD best 0 < xs.getD i 0 then i else best) 0) 0) := by
  intro n
  induction n with
  | zero => intro h; exact absurd h (lt_irrefl 0)
  | succ n ih =>
    intro _
    have hfold : (List.range (n+1)).foldl
        (fun best i => if xs.getD best 0 < xs.getD i 0 then i else best) 0 =
        (fun best i => if xs.getD best 0 < xs.getD i 0 then i else best)
          ((List.range n).foldl
            (fun best i => if xs.getD best 0 < xs.getD i 0 then i else best) 0) n := by
      rw [List.range_succ, List.foldl_append]
      rfl
    by_cases hn : 0 < n
    · obtain ⟨h1, h2, h3⟩ := ih hn
      by_cases hlt : xs.getD ((List.range n).foldl
          (fun best i => if xs.getD best 0 < xs.getD i 0 then i else best) 0) 0 <
          xs.getD n 0
      · rw [hfold]
        simp only [if_pos hlt]
        refine ⟨Nat.lt_succ_self n, ?_, ?_⟩
        · intro j hj
          rcases Nat.lt_succ_iff_lt_or_eq.mp hj with hj' | rfl
          · exact le_trans (h2 j hj') (le_of_lt hlt)
          · exact le_refl _
        · intro j hj
          exact lt_of_le_of_lt (h2 j hj) hlt
      · rw [hfold]
        simp only [if_neg hlt]
        refine ⟨Nat.lt_succ_of_lt h1, ?_, h3⟩
        intro j hj
        rcases Nat.lt_succ_iff_lt_or_eq.mp hj with hj' | rfl
        · exact h2 j hj'
        · exact le_of_not_lt hlt
    · have hn0 : n = 0 := Nat.eq_zero_of_not_pos hn
      subst hn0
      rw [hfold]
      simp only [List.range_zero, List.foldl_nil, if_neg (lt_irrefl (xs.getD 0 0))]
      exact ⟨Nat.zero_lt_one, fun j hj => by
        interval_cases j
        · exact le_refl _, fun j hj => absurd hj (Nat.not_lt_zero j)⟩

/-- Helper: `firstArgmax` really is the arg-max with ties broken toward the
first (lowest) index. -/
theorem firstArgmax_spec (xs : List ℚ) (hne : xs ≠ []) :
    firstArgmax xs < xs.length ∧
    (∀ j < xs.length, xs.getD j 0 ≤ xs.getD (firstArgmax xs) 0) ∧
    (∀ j < firstArgmax xs, xs.getD j 0 < xs.getD (firstArgmax xs) 0) :=
  firstArgmax_fold_spec xs xs.length (List.length_pos.mpr hne)

/-- C9 (amended).  For every random draw `r` with `0 < r < 1`, `act` at
`epsilon = 0` ignores the uniform-random branch and returns the first
arg-max of `forward(observation)` (ties toward the lowest index, which the
`firstArgmax` conjunct certifies) — but determinism fails only for the
boundary draw `r = 0` (see the counterexample), since `random.random()` can
return exactly `0.0` and `0.0 > 0` is false. -/
theorem c9_act_greedy :
    (∀ (net : DuelingDDQN) (obs : List ℚ) (r r' : ℚ) (c c' : ℕ),
      0 < r → r < 1 → 0 < r' → r' < 1 →
      net.act obs 0 r c = firstArgmax ((net.forward [obs]).headD []) ∧
        net.act obs 0 r c = net.act obs 0 r' c') ∧
    (∀ xs : List ℚ, xs ≠ [] →
      firstArgmax xs < xs.length ∧
      (∀ j < xs.length, xs.getD j 0 ≤ xs.getD (firstArgmax xs) 0) ∧
      (∀ j < firstArgmax xs, xs.getD j 0 < xs.getD (firstArgmax xs) 0)) := by
  refine ⟨?_, firstArgmax_spec⟩
  intro net obs r r' c c' hr _ hr' _
  constructor
  · show (if (0:ℚ) < r then _ else _) = _
    rw [if_pos hr]
  · show (if (0:ℚ) < r then _ else _) = (if (0:ℚ) < r' then _ else _)
    rw [if_pos hr, if_pos hr']

/-- C9 counterexample.  `random.random()` can return exactly `0.0`, which is
a valid draw (`0 ≤ 0 < 1`); at `epsilon = 0` the code's test `r > 0` is then
false and the uniformly random branch is taken, so `act(observation, 0)` DOES
depend on the random source: draw `0` yields action `1` (the random choice)
while draw `1/2` yields the arg-max action `0`. -/
theorem c9_counterexample :
    (0:ℚ) ≤ 0 ∧ (0:ℚ) < 1 ∧ (0:ℚ) ≤ 1/2 ∧ (1/2:ℚ) < 1 ∧ 1 < probeNet.action_dim ∧
    probeNet.act [0] 0 0 1 = 1 ∧ probeNet.act [0] 0 (1/2) 1 = 0 := by
  refine ⟨le_refl 0, by norm_num, by norm_num, by norm_num, by norm_num [probeNet], ?_, ?_⟩
  · show (if (0:ℚ) < 0 then _ else 1) = 1
    rw [if_neg (lt_irrefl (0:ℚ))]
  · show (if (0:ℚ) < 1/2 then firstArgmax ((probeNet.forward [[0]]).headD []) else 1) = 0
    rw [if_pos (by norm_num)]
    rw [probe_forward_zero]
    show firstArgmax [0, 0] = 0
    norm_num [firstArgmax, List.range_succ]

/-- Witness for C9 at the probe network and the draws `1/2` and `1/3`. -/
theorem c9_witness :
    probeNet.act [0] 0 (1/2) 1 = firstArgmax ((probeNet.forward [[0]]).headD []) ∧
    probeNet.act [0] 0 (1/2) 1 = probeNet.act [0] 0 (1/3) 0 :=
  c9_act_greedy.1 probeNet [0] (1/2) (1/3) 1 0
    (by norm_num) (by norm_num) (by norm_num) (by norm_num)

/-! ## C6: the buffer is a bounded circular store -/

/-- C6.  `store` never grows the memory beyond `capacity` (append while
under capacity, in-place overwrite at the wrapped write position once
full), and concretely: a capacity-4 buffer holds 4 transitions after 5
stores and slot 0 then holds the 5th transition's data (the oldest slot by
write order was overwritten). -/
theorem c6_capacity_invariant :
    (∀ (b : PrioritizedReplayBuffer) o a r no d, b.memory.length ≤ b.capacity →
      (b.store o a r no d).memory.length ≤ b.capacity ∧
        (b.store o a r no d).capacity = b.capacity) ∧
    (buf5.memory.length = 4 ∧
      buf5.memory.getD 0 defaultTransition =
        { observation := [[5]], action := 5, reward := 5,
          next_observation := [[5]], done := false }) := by
  refine ⟨?_, by decide, by decide⟩
  intro b o a r no d hle
  refine ⟨?_, rfl⟩
  show (if b.memory.length < b.capacity then b.memory ++ [_]
        else b.memory.set b.pos _).length ≤ b.capacity
  by_cases h : b.memory.length < b.capacity
  · rw [if_pos h, List.length_append]
    simpa using Nat.succ_le_of_lt h
  · rw [if_neg h, List.length_set]
    exact hle

/-- Witness for C6's general invariant at a concrete one-element store. -/
theorem c6_witness :
    ((PrioritizedReplayBuffer.initDefault 4).store [1] 1 1 [1] false).memory.length ≤
      (PrioritizedReplayBuffer.initDefault 4).capacity :=
  (c6_capacity_invariant.1 (PrioritizedReplayBuffer.initDefault 4) [1] 1 1 [1] false
    (by decide)).1

/-! ## C7: the stored entry's priority is the occupied maximum -/

/-- C7.  After any `store` on a buffer satisfying the representation
invariants (priority array of length `capacity`, write position equal to
the occupied count while under capacity and always below `capacity`,
unoccupied priority slots zero), the newly written slot's priority equals
the maximum priority over all occupied slots of the post-store buffer, and
equals `1.0` when the buffer was previously empty.  `store` is total: it
has no error conditions. -/
theorem c7_store_priority (b : PrioritizedReplayBuffer) (o : List ℚ) (a : ℕ) (r : ℚ)
    (no : List ℚ) (d : Bool)
    (hlen : b.priorities.length = b.capacity)
    (hcap : b.memory.length ≤ b.capacity)
    (hpos : b.memory.length < b.capacity → b.pos = b.memory.length)
    (hplt : b.pos < b.capacity)
    (hunocc : ∀ i ∈ List.range b.priorities.length, b.memory.length ≤ i →
      b.priorities.getD i 0 = 0) :
    ((b.store o a r no d).priorities.getD b.pos 0 =
      npMax ((b.store o a r no d).priorities.take (b.store o a r no d).memory.length)) ∧
    (b.memory = [] → (b.store o a r no d).priorities.getD b.pos 0 = 1) := by
  have hposP : b.pos < b.priorities.length := by rw [hlen]; exact hplt
  have hpr : (b.store o a r no d).priorities =
      b.priorities.set b.pos (if b.memory.isEmpty then 1 else npMax b.priorities) := rfl
  have hgetD : (b.store o a r no d).priorities.getD b.pos 0 =
      (if b.memory.isEmpty then 1 else npMax b.priorities) := by
    rw [hpr, List.getD_eq_getElem _ _ (by rw [List.length_set]; exact hposP)]
    exact List.getElem_set_self _
  have hMbound : ∀ x ∈ b.priorities, x ≤ (if b.memory.isEmpty then 1 else npMax b.priorities) := by
    intro x hx
    by_cases hemp : b.memory.isEmpty
    · obtain ⟨i, hi, hgx⟩ := List.mem_iff_getElem.mp hx
      have hzero : b.priorities.getD i 0 = 0 := by
        refine hunocc i (List.mem_range.mpr hi) ?_
        rw [List.isEmpty_iff.mp hemp]
        exact Nat.zero_le i
      rw [List.getD_eq_getElem _ _ hi, hgx] at hzero
      rw [if_pos hemp, hzero]
      norm_num
    · rw [if_neg hemp]
      exact le_npMax_of_mem hx
  have hposnl : b.pos < (b.store o a r no d).memory.length := by
    show b.pos < (if b.memory.length < b.capacity then b.memory ++ [_]
        else b.memory.set b.pos _).length
    by_cases h : b.memory.length < b.capacity
    · rw [if_pos h, List.length_append, hpos h]
      simp
    · rw [if_neg h, List.length_set]
      exact lt_of_lt_of_le hplt (le_of_not_lt h)
  have hnlP : (b.store o a r no d).memory.length ≤ b.priorities.length := by
    show (if b.memory.length < b.capacity then b.memory ++ [_]
        else b.memory.set b.pos _).length ≤ b.priorities.length
    rw [hlen]
    by_cases h : b.memory.length < b.capacity
    · rw [if_pos h, List.length_append]
      simpa using Nat.succ_le_of_lt h
    · rw [if_neg h, List.length_set]
      exact hcap
  refine ⟨?_, fun hemp => by rw [hgetD, if_pos (List.isEmpty_iff.mpr hemp)]⟩
  rw [hgetD, hpr]
  refine (npMax_eq_of_mem_of_le ?_ ?_).symm
  · have htlen : b.pos <
        ((b.priorities.set b.pos (if b.memory.isEmpty then 1 else npMax b.priorities)).take
          (b.store o a r no d).memory.length).length := by
      rw [List.length_take, List.length_set]
      exact lt_min hposnl hposP
    refine List.mem_iff_getElem.mpr ⟨b.pos, htlen, ?_⟩
    rw [List.getElem_take]
    exact List.getElem_set_self _
  · intro x hx
    rcases List.mem_or_eq_of_mem_set (List.mem_of_mem_take hx) with hxP | rfl
    · exact hMbound x hxP
    · exact le_refl _

/-- Witness for C7 at a concrete two-transition buffer of capacity 4. -/
theorem c7_witness :
    ((buf2of4.store [3] 3 3 [3] false).priorities.getD buf2of4.pos 0 =
      npMax ((buf2of4.store [3] 3 3 [3] false).priorities.take
        (buf2of4.store [3] 3 3 [3] false).memory.length)) ∧
    (buf2of4.memory = [] → (buf2of4.store [3] 3 3 [3] false).priorities.getD buf2of4.pos 0 = 1) :=
  c7_store_priority buf2of4 [3] 3 3 [3] false
    (by decide) (by decide) (by decide) (by decide) (by decide)

/-! ## C8: sample returns batch_size occupied indices and max weight 1 -/

/-- C8.  Under the `np.random.choice` contract (`batch_size` draws, each
below the occupied count, possible because each drawn entry has positive
weight), `sample` returns exactly `batch_size` indices, all referencing
occupied slots; the probability vector handed to the random draw is
`priority^alpha / sum(priority^alpha)` over the occupied slots only (both
when the buffer is full and when it is not); and after normalizing the
importance-sampling weights `(N * p_i)^(-beta)` by their maximum, the
maximum weight in the returned batch is exactly `1`. -/
theorem c8_sample_spec (b : PrioritizedReplayBuffer) (rpow : ℚ → ℚ → ℚ)
    (batch_size : ℕ) (draws : List ℕ)
    (hlen : b.priorities.length = b.capacity)
    (hmem : b.memory.length ≤ b.capacity)
    (hbs : 0 < batch_size)
    (hdlen : draws.length = batch_size)
    (hdr : ∀ i ∈ draws, i < b.memory.length)
    (hwpos : ∀ i ∈ draws,
      0 < rpow ((b.memory.length : ℚ) * ((b.sampleProbs rpow).getD i 0)) (-b.beta)) :
    ((b.sample rpow batch_size draws).1.indices.length = batch_size) ∧
    (∀ i ∈ (b.sample rpow batch_size draws).1.indices, i < b.memory.length) ∧
    (b.sampleProbs rpow = (b.priorities.take b.memory.length).map
      (fun p => rpow p b.alpha /
        ((b.priorities.take b.memory.length).map (fun q => rpow q b.alpha)).sum)) ∧
    npMax ((b.sample rpow batch_size draws).1.weights) = 1 := by
  have hidx : (b.sample rpow batch_size draws).1.indices = draws := rfl
  refine ⟨by rw [hidx]; exact hdlen, by rw [hidx]; exact hdr, ?_, ?_⟩
  · show (let probs0 := if b.memory.length < b.capacity
            then b.priorities.take b.memory.length else b.priorities
          let powed := probs0.map (fun p => rpow p b.alpha)
          powed.map (fun p => p / powed.sum)) = _
    by_cases h : b.memory.length < b.capacity
    · rw [if_pos h, List.map_map]
      rfl
    · have hfull : b.priorities.take b.memory.length = b.priorities := by
        have hcapeq : b.memory.length = b.capacity := le_antisymm hmem (le_of_not_lt h)
        rw [hcapeq, ← hlen, List.take_length]
      rw [if_neg h, hfull, List.map_map]
      rfl
  · have hw : (b.sample rpow batch_size draws).1.weights =
        (draws.map (fun i => rpow ((b.memory.length : ℚ) *
            ((b.sampleProbs rpow).getD i 0)) (-b.beta))).map
          (fun w => w / npMax (draws.map (fun i => rpow ((b.memory.length : ℚ) *
            ((b.sampleProbs rpow).getD i 0)) (-b.beta)))) := rfl
    set w0 := draws.map (fun i => rpow ((b.memory.length : ℚ) *
      ((b.sampleProbs rpow).getD i 0)) (-b.beta)) with hw0
    have hw0pos : ∀ x ∈ w0, 0 < x := by
      intro x hx
      obtain ⟨i, hi, rfl⟩ := List.mem_map.mp hx
      exact hwpos i hi
    have hw0ne : w0 ≠ [] := by
      rw [hw0]
      intro hcon
      have := List.map_eq_nil_iff.mp hcon
      rw [this] at hdlen
      rw [← hdlen] at hbs
      exact absurd hbs (lt_irrefl 0)
    have hMpos : 0 < npMax w0 := hw0pos _ (npMax_mem hw0ne)
    rw [hw]
    refine npMax_eq_of_mem_of_le ?_ ?_
    · refine List.mem_map.mpr ⟨npMax w0, npMax_mem hw0ne, ?_⟩
      exact div_self (ne_of_gt hMpos)
    · intro x hx
      obtain ⟨y, hy, rfl⟩ := List.mem_map.mp hx
      exact (div_le_one hMpos).mpr (le_npMax_of_mem hy)

/-- Witness for C8 at a concrete full capacity-2 buffer, constant power
function and the draws `[0, 1]`. -/
theorem c8_witness :
    ((buf2of2.sample (fun _ _ => 1) 2 [0, 1]).1.indices.length = 2) ∧
    (∀ i ∈ (buf2of2.sample (fun _ _ => 1) 2 [0, 1]).1.indices,
      i < buf2of2.memory.length) ∧
    (buf2of2.sampleProbs (fun _ _ => 1) =
      (buf2of2.priorities.take buf2of2.memory.length).map
        (fun _ => (1:ℚ) /
          ((buf2of2.priorities.take buf2of2.memory.length).map
            (fun _ => (1:ℚ))).sum)) ∧
    npMax ((buf2of2.sample (fun _ _ => 1) 2 [0, 1]).1.weights) = 1 :=
  c8_sample_spec buf2of2 (fun _ _ => 1) 2 [0, 1]
    (by decide) (by decide) (by decide) (by decide) (by decide) (by decide)

/-! ## C2: the written-back priorities omit reward, gamma and done -/

theorem getD_set_ne (l : List ℚ) (i j : ℕ) (v : ℚ) (h : i ≠ j) :
    (l.set i v).getD j 0 = l.getD j 0 := by
  rw [List.getD_eq_getElem?_getD, List.getD_eq_getElem?_getD, List.getElem?_set_ne h]

theorem foldl_set_getD_not_mem (pairs : List (ℕ × ℚ)) :
    ∀ (arr : List ℚ) (i : ℕ), i ∉ pairs.map Prod.fst →
    (pairs.foldl (fun a ip => a.set ip.1 ip.2) arr).getD i 0 = arr.getD i 0 := by
  induction pairs with
  | nil => intro arr i _; rfl
  | cons p ps ih =>
    intro arr i h
    have hne : p.1 ≠ i := fun hc => h (by rw [← hc]; exact List.mem_cons_self _ _)
    rw [List.foldl_cons, ih _ i (fun hc => h (List.mem_cons_of_mem _ hc)),
      getD_set_ne _ _ _ _ hne]

theorem foldl_set_getD (pairs : List (ℕ × ℚ)) :
    ∀ (arr : List ℚ) (i : ℕ) (v : ℚ), (i, v) ∈ pairs →
    (pairs.map Prod.fst).Nodup → (∀ p ∈ pairs, p.1 < arr.length) →
    (pairs.foldl (fun a ip => a.set ip.1 ip.2) arr).getD i 0 = v := by
  induction pairs with
  | nil => intro arr i v hm _ _; cases hm
  | cons p ps ih =>
    intro arr i v hm hnd hlt
    have hnd' := List.nodup_cons.mp hnd
    rcases List.mem_cons.mp hm with heq | hmem
    · have hp1 : p.1 = i := by rw [← heq]
      have hp2 : p.2 = v := by rw [← heq]
      have hnotin : i ∉ ps.map Prod.fst := hp1 ▸ hnd'.1
      have hilt : i < arr.length := hp1 ▸ hlt p (List.mem_cons_self _ _)
      rw [List.foldl_cons, foldl_set_getD_not_mem ps _ i hnotin, hp1, hp2]
      rw [List.getD_eq_getElem _ _ (by rw [List.length_set]; exact hilt)]
      exact List.getElem_set_self _
    · rw [List.foldl_cons]
      refine ih _ i v hmem hnd'.2 ?_
      intro q hq
      rw [List.length_set]
      exact hlt q (List.mem_cons_of_mem _ hq)

theorem flatten_singletons {α : Type} (d : α) :
    ∀ (l : List (List α)), (∀ x ∈ l, x.length = 1) →
    l.flatten = l.map (fun x => x.headD d) := by
  intro l
  induction l with
  | nil => intro _; rfl
  | cons x xs ih =>
    intro h
    have hx : x.length = 1 := h x (List.mem_cons_self _ _)
    obtain ⟨a, rfl⟩ : ∃ a, x = [a] := by
      cases x with
      | nil => simp at hx
      | cons a t =>
        cases t with
        | nil => exact ⟨a, rfl⟩
        | cons b u => simp at hx
    simp only [List.flatten_cons, List.map_cons, List.headD_cons]
    rw [ih (fun y hy => h y (List.mem_cons_of_mem _ hy))]
    rfl

theorem forward_length (net : DuelingDDQN) (batch : List (List ℚ)) :
    (net.forward batch).length = batch.length := by
  show (List.zipWith _ _ _).length = _
  rw [List.length_zipWith, List.length_map, List.length_map, min_self]

theorem trainPriorities_length (evalNet targetNet : DuelingDDQN)
    (obs nextobs : List (List ℚ)) (acts : List ℕ) :
    (trainPriorities evalNet targetNet obs nextobs acts).length =
      min nextobs.length (min obs.length acts.length) := by
  show (List.zipWith _ (rowMaxes (targetNet.forward nextobs))
      (torchGather (evalNet.forward obs) acts)).length = _
  rw [List.length_zipWith]
  show (List.map _ _).length ⊓ (List.zipWith _ _ _).length = _
  rw [List.length_map, forward_length, List.length_zipWith, forward_length]

theorem trainPriorities_getD (evalNet targetNet : DuelingDDQN)
    (obs nextobs : List (List ℚ)) (acts : List ℕ) (k : ℕ)
    (h1 : k < obs.length) (h2 : k < nextobs.length) (h3 : k < acts.length) :
    (trainPriorities evalNet targetNet obs nextobs acts).getD k 0 =
      |npMax ((targetNet.forward nextobs).getD k []) -
        ((evalNet.forward obs).getD k []).getD (acts.getD k 0) 0| := by
  have hzl : k < (trainPriorities evalNet targetNet obs nextobs acts).length := by
    rw [trainPriorities_length]
    exact lt_min h2 (lt_min h1 h3)
  have hfn : k < (targetNet.forward nextobs).length := by rw [forward_length]; exact h2
  have hfo : k < (evalNet.forward obs).length := by rw [forward_length]; exact h1
  rw [List.getD_eq_getElem _ _ hzl]
  simp only [trainPriorities, trainNextQValue, trainQValue, rowMaxes, torchGather]
  rw [List.getElem_zipWith, List.getElem_map, List.getElem_zipWith]
  rw [List.getD_eq_getElem _ _ hfn, List.getD_eq_getElem _ _ hfo,
    List.getD_eq_getElem _ _ h3]

/-- C2 counterexample.  With identical probe eval/target networks, a single
sampled transition with `reward = 1`, `done = 0` and `gamma = 99/100`, the
code's written-back priority is `|next_q_value - q_value| = 0`, while the
claimed `|bootstrap target - q_value|` is `1`: the code omits the reward,
the discount and the termination mask from the priority. -/
theorem c2_counterexample :
    trainPriorities probeNet probeNet [[0]] [[0]] [0] = [0] ∧
    trainPrioritiesSpecTarget (99/100) probeNet probeNet [[0]] [[0]] [0] [1] [0] = [1] ∧
    ([0] : List ℚ) ≠ [1] := by
  refine ⟨?_, ?_, by decide⟩
  · show List.zipWith _ (rowMaxes (probeNet.forward [[0]]))
      (torchGather (probeNet.forward [[0]]) [0]) = [0]
    rw [probe_forward_zero]
    norm_num [rowMaxes, torchGather, npMax]
  · show List.zipWith _
      (expectedQValue (99/100) [1] [0] (rowMaxes (probeNet.forward [[0]])))
      (torchGather (probeNet.forward [[0]]) [0]) = [1]
    rw [probe_forward_zero]
    norm_num [rowMaxes, torchGather, npMax, expectedQValue]

/-- C2 (amended).  In `train`, the new priorities written back to the
buffer at the sampled indices equal, per sample,
`|max_a target_net(next_observation)[a] - q_value|` — the raw difference of
the target network's next-state maximum and the eval network's Q-value at
the taken action; the reward, the discount `gamma` and the `(1 - done)`
mask of the bootstrap target are NOT part of the written priority. -/
theorem c2_train_priorities (b : PrioritizedReplayBuffer) (rpow : ℚ → ℚ → ℚ)
    (batch_size : ℕ) (draws : List ℕ) (evalNet targetNet : DuelingDDQN) (k : ℕ)
    (hnd : draws.Nodup)
    (hdp : ∀ i ∈ draws, i < b.priorities.length)
    (hdr : ∀ i ∈ draws, i < b.memory.length)
    (hobs1 : ∀ t ∈ b.memory, t.observation.length = 1)
    (hnobs1 : ∀ t ∈ b.memory, t.next_observation.length = 1)
    (hk : k < draws.length) :
    (trainBufferEffect b rpow batch_size draws evalNet targetNet).priorities.getD
        (draws.getD k 0) 0 =
      |npMax ((targetNet.forward
          (b.sample rpow batch_size draws).1.next_observation).getD k []) -
        ((evalNet.forward (b.sample rpow batch_size draws).1.observation).getD k []).getD
          ((b.sample rpow batch_size draws).1.action.getD k 0) 0| := by
  have hmemD : ∀ i ∈ draws, b.memory.getD i defaultTransition ∈ b.memory := by
    intro i hi
    rw [List.getD_eq_getElem _ _ (hdr i hi)]
    exact List.getElem_mem _
  have hobs : (b.sample rpow batch_size draws).1.observation =
      (draws.map (fun i => b.memory.getD i defaultTransition)).map
        (fun t => t.observation.headD []) := by
    show ((draws.map (fun i => b.memory.getD i defaultTransition)).map
        (·.observation)).flatten = _
    rw [flatten_singletons ([] : List ℚ) _ (by
      intro x hx
      obtain ⟨t, ht, rfl⟩ := List.mem_map.mp hx
      obtain ⟨i, hi, rfl⟩ := List.mem_map.mp ht
      exact hobs1 _ (hmemD i hi)), List.map_map]
    rfl
  have hnobs : (b.sample rpow batch_size draws).1.next_observation =
      (draws.map (fun i => b.memory.getD i defaultTransition)).map
        (fun t => t.next_observation.headD []) := by
    show ((draws.map (fun i => b.memory.getD i defaultTransition)).map
        (·.next_observation)).flatten = _
    rw [flatten_singletons ([] : List ℚ) _ (by
      intro x hx
      obtain ⟨t, ht, rfl⟩ := List.mem_map.mp hx
      obtain ⟨i, hi, rfl⟩ := List.mem_map.mp ht
      exact hnobs1 _ (hmemD i hi)), List.map_map]
    rfl
  have hact : (b.sample rpow batch_size draws).1.action =
      (draws.map (fun i => b.memory.getD i defaultTransition)).map (·.action) := rfl
  have hlo : (b.sample rpow batch_size draws).1.observation.length = draws.length := by
    rw [hobs, List.length_map, List.length_map]
  have hlno : (b.sample rpow batch_size draws).1.next_observation.length = draws.length := by
    rw [hnobs, List.length_map, List.length_map]
  have hla : (b.sample rpow batch_size draws).1.action.length = draws.length := by
    rw [hact, List.length_map, List.length_map]
  set ps := trainPriorities evalNet targetNet
    (b.sample rpow batch_size draws).1.observation
    (b.sample rpow batch_size draws).1.next_observation
    (b.sample rpow batch_size draws).1.action with hps
  have hpslen : ps.length = draws.length := by
    rw [hps, trainPriorities_length, hlo, hlno, hla, min_self, min_self]
  have hres : (trainBufferEffect b rpow batch_size draws evalNet targetNet).priorities =
      (List.zip draws ps).foldl (fun a ip => a.set ip.1 ip.2) b.priorities := rfl
  have hkz : k < (List.zip draws ps).length := by
    rw [List.length_zip, hpslen, min_self]
    exact hk
  have hpair : (draws.getD k 0, ps.getD k 0) ∈ List.zip draws ps := by
    have := List.getElem_mem hkz
    rwa [List.getElem_zip, ← List.getD_eq_getElem draws 0 hk,
      ← List.getD_eq_getElem ps 0 (by rw [hpslen]; exact hk)] at this
  have hfst : (List.zip draws ps).map Prod.fst = draws :=
    List.map_fst_zip draws ps (by rw [hpslen])
  rw [hres, foldl_set_getD _ _ _ _ hpair (by rw [hfst]; exact hnd) (by
    intro p hp
    exact hdp p.1 (List.mem_zip hp).1)]
  rw [hps]
  exact trainPriorities_getD evalNet targetNet _ _ _ k
    (by rw [hlo]; exact hk) (by rw [hlno]; exact hk) (by rw [hla]; exact hk)

/-- Witness for C2's amended theorem at a concrete full capacity-2 buffer,
probe networks and the draws `[0, 1]`. -/
theorem c2_witness :
    (trainBufferEffect buf2of2 (fun _ _ => 1) 2 [0, 1] probeNet probeNet).priorities.getD
        (([0, 1] : List ℕ).getD 0 0) 0 =
      |npMax ((probeNet.forward
          (buf2of2.sample (fun _ _ => 1) 2 [0, 1]).1.next_observation).getD 0 []) -
        ((probeNet.forward
            (buf2of2.sample (fun _ _ => 1) 2 [0, 1]).1.observation).getD 0 []).getD
          ((buf2of2.sample (fun _ _ => 1) 2 [0, 1]).1.action.getD 0 0) 0| :=
  c2_train_priorities buf2of2 (fun _ _ => 1) 2 [0, 1] probeNet probeNet 0
    (by decide) (by decide) (by decide) (by decide) (by decide) (by decide)

end ReinLife
